import Mathlib

/-!
Shallow embedding of the buffer/frame lifecycle core of the libcamera fork
(include/libcamera/buffer.h) and of the GStreamer adaptation layer
(src/gstreamer/gstlibcamera-utils.cpp), together with theorems settling the
specification claims about them.

Machine integers are modelled as Nat/Int with explicit reduction modulo 2^32
where 32-bit overflow matters.  C++ pointers are modelled as Option Nat
(none = nullptr, some id = a pointer identified by an id).  Functions of the
repository that exist only as declarations in the header (their .cpp bodies
are not part of the source tree) are modelled from the specification; each
such definition carries a doc comment starting with "Modelled from the spec".
-/

namespace Libcamera

/-! ## Pixel formats and the GStreamer format table
    (src/gstreamer/gstlibcamera-utils.cpp, lines 15-103) -/

/-- The libcamera PixelFormat values that occur in `format_map`, plus
`invalid` for the default-constructed `PixelFormat{}` (zero fourcc), `NV42`
(present in libcamera but unmapped, per the source comment), and `other n`
standing for any further fourcc absent from the table. -/
inductive PixelFormat
  | invalid
  | MJPEG
  | JPEG
  | BGR888
  | RGB888
  | BGRA8888
  | NV12
  | NV21
  | NV16
  | NV61
  | NV24
  | YUV420
  | YVU420
  | YUV422
  | UYVY
  | VYUY
  | YUYV
  | YVYU
  | NV42
  | other (fourcc : Nat)
deriving DecidableEq

/-- The GstVideoFormat values that occur in `format_map`, plus `UNKNOWN`,
and `otherGst n` for any further GStreamer format. -/
inductive GstVideoFormat
  | UNKNOWN
  | ENCODED
  | RGB
  | BGR
  | ARGB
  | NV12
  | NV21
  | NV16
  | NV61
  | NV24
  | I420
  | YV12
  | Y42B
  | UYVY
  | VYUY
  | YUY2
  | YVYU
  | otherGst (n : Nat)
deriving DecidableEq

/-- The static `format_map` array of gstlibcamera-utils.cpp, lines 15-47,
in source order: pairs of GstVideoFormat and libcamera PixelFormat. -/
def format_map : List (GstVideoFormat × PixelFormat) :=
  [ (.ENCODED, .MJPEG),
    (.ENCODED, .JPEG),
    (.RGB, .BGR888),
    (.BGR, .RGB888),
    (.ARGB, .BGRA8888),
    (.NV12, .NV12),
    (.NV21, .NV21),
    (.NV16, .NV16),
    (.NV61, .NV61),
    (.NV24, .NV24),
    (.I420, .YUV420),
    (.YV12, .YVU420),
    (.Y42B, .YUV422),
    (.UYVY, .UYVY),
    (.VYUY, .VYUY),
    (.YUY2, .YUYV),
    (.YVYU, .YVYU) ]

/-- pixel_format_to_gst_format (gstlibcamera-utils.cpp, lines 83-91): scan
`format_map` in order for the first entry whose PixelFormat equals the
argument and return its GstVideoFormat; return UNKNOWN when none matches. -/
def pixel_format_to_gst_format (format : PixelFormat) : GstVideoFormat :=
  match format_map.find? (fun item => item.2 == format) with
  | some item => item.1
  | none => .UNKNOWN

/-- gst_format_to_pixel_format (gstlibcamera-utils.cpp, lines 93-103):
reject ENCODED outright (returning the default-constructed PixelFormat),
otherwise scan `format_map` in order for the first entry whose
GstVideoFormat equals the argument; return the default PixelFormat when
none matches. -/
def gst_format_to_pixel_format (gst_format : GstVideoFormat) : PixelFormat :=
  if gst_format == .ENCODED then .invalid
  else
    match format_map.find? (fun item => item.1 == gst_format) with
    | some item => item.2
    | none => .invalid

/-! ## FrameMetadata (include/libcamera/buffer.h, lines 21-36) -/

/-- FrameMetadata::Status (buffer.h, lines 22-26). -/
inductive FrameStatus
  | FrameSuccess
  | FrameError
  | FrameCancelled
deriving DecidableEq

/-- FrameMetadata::Plane (buffer.h, lines 28-30): bytes actually used. -/
structure MetaPlane where
  bytesused : Nat
deriving DecidableEq

/-- FrameMetadata (buffer.h, lines 21-36): status, per-stream sequence
number, capture timestamp, per-plane usage. -/
structure FrameMetadata where
  status : FrameStatus
  sequence : Nat
  timestamp : Nat
  planes : List MetaPlane
deriving DecidableEq

/-- A zero-initialized FrameMetadata: status FrameSuccess (the enum value
zero), sequence 0, timestamp 0, empty plane vector. -/
def zeroMetadata : FrameMetadata :=
  { status := .FrameSuccess, sequence := 0, timestamp := 0, planes := [] }

/-! ## FrameBuffer (buffer.h, lines 38-72) -/

/-- FrameBuffer::Plane (buffer.h, lines 41-44): an exported dmabuf file
descriptor plus a length in bytes. -/
structure FBPlane where
  fd : Int
  length : Nat
deriving DecidableEq

/-- FrameBuffer (buffer.h, lines 38-72): plane descriptors, the back
reference request_ (a pointer, modelled as Option Nat), the embedded
metadata_ and the caller cookie_. -/
structure FrameBuffer where
  planes : List FBPlane
  request : Option Nat
  metadata : FrameMetadata
  cookie : Nat
deriving DecidableEq

/-- Modelled from the spec: the body of
FrameBuffer::FrameBuffer(const std::vector of Plane, unsigned int cookie)
is not in the source tree (only its declaration, buffer.h line 46).  Per
the spec it produces a Frame Buffer with request_ unset and a
zero-initialized Frame Metadata, storing the given planes and cookie. -/
def mkFrameBuffer (planes : List FBPlane) (cookie : Nat) : FrameBuffer :=
  { planes := planes, request := none, metadata := zeroMetadata, cookie := cookie }

/-- The constructor with the cookie argument omitted: the header declares
the default argument value 0 (buffer.h line 46). -/
def mkFrameBufferDefault (planes : List FBPlane) : FrameBuffer :=
  mkFrameBuffer planes 0

/-- The operations the core performs on a FrameBuffer after construction:
setCookie (buffer.h line 60, public), the Request collaborator updating
request_ (friend, buffer.h line 63), and the transport collaborator
updating metadata_ (friend, buffer.h line 64). -/
inductive FBOp
  | setCookie (c : Nat)
  | setRequest (r : Option Nat)
  | writeMetadata (m : FrameMetadata)
deriving DecidableEq

/-- One core operation applied to a FrameBuffer.  None of the operations
touches planes_ (it has no setter in the header and the friends only
update request_ and metadata_). -/
def fbStep (fb : FrameBuffer) : FBOp → FrameBuffer
  | .setCookie c => { fb with cookie := c }
  | .setRequest r => { fb with request := r }
  | .writeMetadata m => { fb with metadata := m }

/-- A sequence of core operations applied to a FrameBuffer. -/
def fbRun (fb : FrameBuffer) (ops : List FBOp) : FrameBuffer :=
  ops.foldl fbStep fb

/-! ## BufferMemory and BufferPool (buffer.h, lines 74-97) -/

/-- BufferMemory (buffer.h, lines 74-82): one pool slot, a vector of
FrameBuffer::Plane descriptors. -/
structure BufferMemory where
  planes : List FBPlane
deriving DecidableEq

/-- BufferPool (buffer.h, lines 84-97): a vector of BufferMemory slots. -/
structure BufferPool where
  buffers : List BufferMemory
deriving DecidableEq

/-- BufferPool::count (buffer.h, line 92): buffers_.size(). -/
def BufferPool.count (p : BufferPool) : Nat :=
  p.buffers.length

/-- A pool is created empty (its only data member is the slot vector,
buffer.h line 96, default-constructed empty). -/
def emptyPool : BufferPool :=
  { buffers := [] }

/-- Modelled from the spec: the body of BufferPool::destroyBuffers() is not
in the source tree (declaration only, buffer.h line 90).  Per the spec it
releases every slot's plane descriptors and empties the slot sequence. -/
def destroyBuffers (_p : BufferPool) : BufferPool :=
  { buffers := [] }

/-- Allocation of `count` consecutive slots starting at slot index `i`
through a backend that may fail on any single slot: all slots succeed or
the whole allocation fails. -/
def allocAll (backend : Nat → Option BufferMemory) : Nat → Nat → Option (List BufferMemory)
  | _, 0 => some []
  | i, n + 1 =>
    match backend i with
    | none => none
    | some m =>
      match allocAll backend (i + 1) n with
      | none => none
      | some rest => some (m :: rest)

/-- Modelled from the spec: the body of BufferPool::createBuffers(count) is
not in the source tree (declaration only, buffer.h line 89).  Per the spec
it asks the allocation backend to populate `count` slots; a backend failure
is propagated to the caller (the Bool result) and is all-or-nothing: on
failure the pool is rolled back to zero slots. -/
def createBuffers (backend : Nat → Option BufferMemory) (_p : BufferPool)
    (count : Nat) : BufferPool × Bool :=
  match allocAll backend 0 count with
  | some slots => ({ buffers := slots }, true)
  | none => ({ buffers := [] }, false)

/-! ## Buffer, the legacy index-based handle (buffer.h, lines 99-131) -/

/-- The unsigned int width used throughout the header. -/
def uintMod : Nat := 2 ^ 32

/-- The default index argument of the Buffer constructor (buffer.h line
102): the literal -1 converted to unsigned int, i.e. reduced modulo 2^32.
This is the "unassigned" sentinel. -/
def bufferDefaultIndex : Nat :=
  ((-1 : Int).emod (uintMod : Int)).toNat

/-- The lifecycle states of a Buffer described by the spec: Unassigned
(index is the sentinel), Allocated (bound to a pool slot, no capture in
flight), Queued (submitted via a Request), and Done (a terminal status has
been recorded in the metadata; which one is read from metadata.status). -/
inductive BufState
  | Unassigned
  | Allocated
  | Queued
  | Done
deriving DecidableEq

/-- Buffer (buffer.h, lines 99-131): pool-slot index, the three raw dmabuf
handles, lifecycle state, the request_ and stream_ back references
(pointers, modelled as Option Nat) and the embedded metadata_. -/
structure Buffer where
  index : Nat
  dmabuf : List Int
  state : BufState
  request : Option Nat
  stream : Option Nat
  metadata : FrameMetadata
deriving DecidableEq

/-- Modelled from the spec: the body of
Buffer::Buffer(unsigned int index = -1, const Buffer *metadata = nullptr)
is not in the source tree (declaration only, buffer.h line 102).  Per the
spec, construction binds the index (the buffer is Unassigned exactly when
the index is the max-unsigned sentinel, Allocated otherwise) and optionally
clones a metadata template; request_ and stream_ start unset. -/
def mkBuffer (index : Nat) (template : Option FrameMetadata) : Buffer :=
  { index := index
    dmabuf := [0, 0, 0]
    state := if index = bufferDefaultIndex then .Unassigned else .Allocated
    request := none
    stream := none
    metadata :=
      match template with
      | some m => m
      | none => zeroMetadata }

/-- A Buffer constructed with both arguments left at their defaults. -/
def mkBufferDefault : Buffer :=
  mkBuffer bufferDefaultIndex none

/-- The lifecycle operations on a Buffer: queue (the Request collaborator
submits the buffer), complete (the transport delivers a success or error
completion with sequence, timestamp and per-plane bytesused), cancel
(Buffer::cancel, buffer.h line 121), and dequeue (the application consumes
the terminal metadata, returning the buffer to Allocated). -/
inductive BufOp
  | queue (req strm : Nat)
  | complete (ok : Bool) (seq ts : Nat) (bytes : List Nat)
  | cancel
  | dequeue
deriving DecidableEq

/-- Modelled from the spec: the bodies of Buffer::cancel and of the
queue/completion paths are not in the source tree (buffer.h declares cancel
on line 121 and grants the collaborators friend access on lines 116-119).
Per the spec: queuing an Allocated buffer sets request_/stream_ and moves
it to Queued; a transport completion of a Queued buffer records Success or
Error with sequence, timestamp and bytesused, clears request_ and delivers
the buffer back; cancel moves a Queued buffer to Cancelled without touching
bytesused and clears request_; a completion or cancel arriving once a
terminal status is already recorded is a detected no-op; dequeuing a Done
buffer returns it to Allocated. -/
def bufStep (b : Buffer) : BufOp → Buffer
  | .queue r s =>
    if b.state = .Allocated then
      { b with state := .Queued, request := some r, stream := some s }
    else b
  | .complete ok seq ts bytes =>
    if b.state = .Queued then
      { b with
        state := .Done
        request := none
        metadata :=
          { status := if ok then .FrameSuccess else .FrameError
            sequence := seq
            timestamp := ts
            planes := bytes.map (fun n => { bytesused := n }) } }
    else b
  | .cancel =>
    if b.state = .Queued then
      { b with
        state := .Done
        request := none
        metadata := { b.metadata with status := .FrameCancelled } }
    else b
  | .dequeue =>
    if b.state = .Done then { b with state := .Allocated } else b

/-- A sequence of lifecycle operations applied to a Buffer. -/
def bufRun (b : Buffer) (ops : List BufOp) : Buffer :=
  ops.foldl bufStep b

/-- Whether an operation is a terminal-status delivery (a transport
completion or a cancellation). -/
def isDelivery : BufOp → Bool
  | .complete _ _ _ _ => true
  | .cancel => true
  | _ => false

/-- The terminal status a delivery records when it wins the race. -/
def deliveryStatus : BufOp → FrameStatus
  | .complete true _ _ _ => .FrameSuccess
  | .complete false _ _ _ => .FrameError
  | _ => .FrameCancelled

/-- The ownership invariant of the spec: request_ is non-null exactly when
the buffer is Queued. -/
def reqQueuedInv (b : Buffer) : Prop :=
  b.request.isSome = true ↔ b.state = .Queued

/-! ## Per-stream sequence numbering (spec section 4.4) -/

/-- Modelled from the spec: the per-stream sequence counter lives in the
Stream/transport code, which is not in the source tree (buffer.h only
declares the sequence field, line 33).  Per the spec every submitted
capture consumes exactly one sequence slot regardless of outcome: starting
from counter value c, each submission in turn is stamped with the current
counter and the counter is incremented by one.  The result pairs each
submission's outcome with its stamped sequence number. -/
def submitAll (c : Nat) : List FrameStatus → List (FrameStatus × Nat)
  | [] => []
  | o :: rest => (o, c) :: submitAll (c + 1) rest

/-! ## The camera-manager singleton
    (src/gstreamer/gstlibcamera-utils.cpp, lines 333-355) -/

/-- The process-wide state behind gst_libcamera_get_camera_manager: the
static weak_ptr cm_singleton_ptr (line 334), modelled by the id of the
CameraManager it can still lock (none when expired or never set), plus a
fresh-id supply standing for operator new. -/
structure CMState where
  alive : Option Nat
  nextId : Nat
deriving DecidableEq

/-- The observable outcome of one call: the returned shared_ptr (none would
be null), the status written to `ret`, the state afterwards, and whether a
new CameraManager was constructed and started by this call. -/
structure CMResult where
  cm : Option Nat
  ret : Int
  state : CMState
  constructed : Bool
deriving DecidableEq

/-- gst_libcamera_get_camera_manager (gstlibcamera-utils.cpp, lines
336-355): under the singleton lock, try to lock the weak_ptr; when that
yields a live instance return it with ret = 0; otherwise construct a fresh
CameraManager, store it in the weak_ptr, start it, and return it with ret
set to the start result (`startResult` stands for the value cm->start()
returns). -/
def gst_libcamera_get_camera_manager (st : CMState) (startResult : Int) : CMResult :=
  match st.alive with
  | some id => { cm := some id, ret := 0, state := st, constructed := false }
  | none =>
    { cm := some st.nextId
      ret := startResult
      state := { alive := some st.nextId, nextId := st.nextId + 1 }
      constructed := true }

/-! ## Structure selection in gst_libcamera_configure_stream_from_caps
    (src/gstreamer/gstlibcamera-utils.cpp, lines 242-297) -/

/-- G_MAXUINT, the initial value of both best-delta accumulators (lines
255-256). -/
def G_MAXUINT : Nat := 2 ^ 32 - 1

/-- Reduction of a mathematical integer to the 32-bit signed value a gint
holds (two's complement wraparound). -/
def wrap32s (x : Int) : Int :=
  (x + 2 ^ 31).emod (2 ^ 32) - 2 ^ 31

/-- The gint value of a guint (the cast on line 272): reduce modulo 2^32,
then reinterpret as signed. -/
def gintOfGuint (n : Nat) : Int :=
  wrap32s ((n : Int).emod (2 ^ 32))

/-- The ABS macro on a gint, with the result stored back in a gint. -/
def absGint (x : Int) : Int :=
  if x < 0 then wrap32s (-x) else x

/-- One caps structure as seen by the selection loop: whether it carries
fixed G_TYPE_INT width and height fields (line 267's test), and the width
and height gst_structure_get_int reads from it — for a ranged structure,
the values left by the external gst_structure_fixate_field_nearest_int
calls (lines 279-280), which are GStreamer library code modelled here only
through their result. -/
structure GstStructureModel where
  hasFixedSize : Bool
  width : Int
  height : Int
deriving DecidableEq

/-- The delta weight of lines 272/284: the product of the two ABS'd gint
differences, converted to the guint variable `delta`, i.e. reduced modulo
2^32. -/
def deltaOf (cfgw cfgh : Nat) (s : GstStructureModel) : Nat :=
  ((absGint (wrap32s (s.width - gintOfGuint cfgw)) *
    absGint (wrap32s (s.height - gintOfGuint cfgh))).emod (2 ^ 32)).toNat

/-- The four selection variables of lines 248/255-256: best_fixed and
best_in_range (gint, -1 initially) and their guint delta accumulators
(G_MAXUINT initially). -/
structure SelState where
  bestFixed : Int
  bestFixedDelta : Nat
  bestInRange : Int
  bestInRangeDelta : Nat
deriving DecidableEq

/-- The initial selection state (lines 248, 255-256). -/
def initSel : SelState :=
  { bestFixed := -1, bestFixedDelta := G_MAXUINT
    bestInRange := -1, bestInRangeDelta := G_MAXUINT }

/-- One iteration of the lookup loop (lines 262-291) on the structure at
index i: a structure with fixed int width/height competes for best_fixed,
any other is fixated (externally) and competes for best_in_range, in both
cases under a strict `delta < best_delta` comparison. -/
def selStep (cfgw cfgh : Nat) (i : Nat) (st : SelState) (s : GstStructureModel) : SelState :=
  let delta := deltaOf cfgw cfgh s
  if s.hasFixedSize then
    if delta < st.bestFixedDelta then
      { st with bestFixed := (i : Int), bestFixedDelta := delta }
    else st
  else
    if delta < st.bestInRangeDelta then
      { st with bestInRange := (i : Int), bestInRangeDelta := delta }
    else st

/-- The whole lookup loop, starting at structure index i in state st. -/
def selLoop (cfgw cfgh : Nat) : Nat → SelState → List GstStructureModel → SelState
  | _, st, [] => st
  | i, st, s :: rest => selLoop cfgw cfgh (i + 1) (selStep cfgw cfgh i st s) rest

/-- The index handed to gst_caps_get_structure after the loop (lines
293-297): best_fixed when it is non-negative, best_in_range otherwise. -/
def chosenIndex (cfgw cfgh : Nat) (caps : List GstStructureModel) : Int :=
  let st := selLoop cfgw cfgh 0 initSel caps
  if 0 ≤ st.bestFixed then st.bestFixed else st.bestInRange

/-- The loop invariant tying the delta accumulators to the indices: a
best-delta strictly below its initial value G_MAXUINT can only have been
written together with a non-negative best index. -/
def selInv (st : SelState) : Prop :=
  (st.bestFixedDelta < G_MAXUINT → 0 ≤ st.bestFixed) ∧
  (st.bestInRangeDelta < G_MAXUINT → 0 ≤ st.bestInRange)

/-! ## Helper lemmas -/

/-- No core FrameBuffer operation changes the plane vector. -/
theorem fbStep_planes (fb : FrameBuffer) (op : FBOp) :
    (fbStep fb op).planes = fb.planes := by
  cases op <;> rfl

/-- Plane immutability extends to arbitrary operation sequences. -/
theorem fbRun_planes (ops : List FBOp) : ∀ fb : FrameBuffer,
    (fbRun fb ops).planes = fb.planes := by
  induction ops with
  | nil => intro fb; rfl
  | cons op rest ih =>
    intro fb
    show (fbRun (fbStep fb op) rest).planes = fb.planes
    rw [ih (fbStep fb op), fbStep_planes]

/-- A successful slot allocation yields exactly the requested number of
slots. -/
theorem allocAll_length (backend : Nat → Option BufferMemory) :
    ∀ (n i : Nat) (l : List BufferMemory),
      allocAll backend i n = some l → l.length = n := by
  intro n
  induction n with
  | zero =>
    intro i l h
    simp only [allocAll] at h
    cases h
    rfl
  | succ m ih =>
    intro i l h
    simp only [allocAll] at h
    cases hb : backend i with
    | none => rw [hb] at h; cases h
    | some mem =>
      rw [hb] at h
      cases hr : allocAll backend (i + 1) m with
      | none => rw [hr] at h; cases h
      | some rest =>
        rw [hr] at h
        cases h
        simp [ih (i + 1) rest hr]

/-! ## Claim theorems: pool and constructors -/

/-- C4: BufferPool::createBuffers is all-or-nothing: on success the pool
holds exactly the requested number of slots, on backend failure the failure
is propagated and the pool is left with zero slots, and no outcome leaves
the pool with strictly between zero and the requested number of slots. -/
theorem createBuffers_all_or_nothing :
    ∀ (backend : Nat → Option BufferMemory) (p : BufferPool) (count : Nat),
      ((createBuffers backend p count).2 = true →
        (createBuffers backend p count).1.count = count) ∧
      ((createBuffers backend p count).2 = false →
        (createBuffers backend p count).1.count = 0) ∧
      ¬(0 < (createBuffers backend p count).1.count ∧
        (createBuffers backend p count).1.count < count) := by
  intro backend p count
  unfold createBuffers
  cases h : allocAll backend 0 count with
  | none => simp [BufferPool.count]
  | some slots =>
    have hlen := allocAll_length backend count 0 slots h
    simp [BufferPool.count, hlen]

/-- Witness: a backend that always succeeds yields a pool of exactly the
requested two slots. -/
theorem createBuffers_all_or_nothing_w :
    (createBuffers (fun _ => some { planes := [] }) emptyPool 2).1.count = 2 :=
  (createBuffers_all_or_nothing (fun _ => some { planes := [] }) emptyPool 2).1 rfl

/-- C5: BufferPool::destroyBuffers is idempotent: destroying twice equals
destroying once, destroying the empty pool is a no-op, and count() is zero
after any destroy as well as on a freshly created pool.  The operation has
no error channel at all (it returns only the pool), so the no-op signals no
error. -/
theorem destroyBuffers_idempotent :
    (∀ p : BufferPool, destroyBuffers (destroyBuffers p) = destroyBuffers p) ∧
    destroyBuffers emptyPool = emptyPool ∧
    (∀ p : BufferPool, (destroyBuffers p).count = 0) ∧
    emptyPool.count = 0 :=
  ⟨fun _ => rfl, rfl, fun _ => rfl, rfl⟩

/-- C6: a freshly constructed FrameBuffer has a null request, a
zero-initialized metadata, the given cookie (0 when the argument is
omitted) and exactly the given plane descriptors, and no sequence of core
operations ever changes the plane vector. -/
theorem frameBuffer_construction_planes_immutable :
    (∀ (planes : List FBPlane) (cookie : Nat),
      (mkFrameBuffer planes cookie).request = none ∧
      (mkFrameBuffer planes cookie).metadata = zeroMetadata ∧
      (mkFrameBuffer planes cookie).cookie = cookie ∧
      (mkFrameBuffer planes cookie).planes = planes) ∧
    (∀ planes : List FBPlane, mkFrameBufferDefault planes = mkFrameBuffer planes 0) ∧
    (∀ (fb : FrameBuffer) (ops : List FBOp), (fbRun fb ops).planes = fb.planes) :=
  ⟨fun _ _ => ⟨rfl, rfl, rfl, rfl⟩, fun _ => rfl, fun fb ops => fbRun_planes ops fb⟩

/-- C8: the Buffer constructor's defaulted index argument -1 converts to
the maximum unsigned 32-bit value 2^32 - 1, a Buffer constructed with the
defaults carries that sentinel index and is Unassigned, and the sentinel is
distinct from every valid slot index of a pool whose count fits in an
unsigned int. -/
theorem buffer_default_index_sentinel :
    bufferDefaultIndex = 2 ^ 32 - 1 ∧
    mkBufferDefault.index = 2 ^ 32 - 1 ∧
    mkBufferDefault.state = .Unassigned ∧
    ∀ p : BufferPool, p.count ≤ 2 ^ 32 - 1 →
      ∀ i, i < p.count → i ≠ bufferDefaultIndex := by
  have hidx : bufferDefaultIndex = 2 ^ 32 - 1 := by decide
  refine ⟨hidx, hidx, by simp [mkBufferDefault, mkBuffer], ?_⟩
  intro p hp i hi
  rw [hidx]
  omega

/-- Witness: a one-slot pool's only valid index 0 differs from the
sentinel. -/
theorem buffer_default_index_sentinel_w :
    (0 : Nat) ≠ bufferDefaultIndex :=
  buffer_default_index_sentinel.2.2.2 { buffers := [{ planes := [] }] }
    (by decide) 0 (by decide)

/-! ## Claim theorems: buffer lifecycle -/

/-- A delivery hitting a buffer that already carries a terminal status is a
detected no-op: it leaves the buffer entirely unchanged. -/
theorem bufStep_done_delivery (b : Buffer) (e : BufOp) (hb : b.state = .Done)
    (he : isDelivery e = true) : bufStep b e = b := by
  cases e with
  | complete ok seq ts bytes => simp [bufStep, hb]
  | cancel => simp [bufStep, hb]
  | queue r s => simp [isDelivery] at he
  | dequeue => simp [isDelivery] at he

/-- A whole sequence of deliveries hitting a Done buffer is the identity. -/
theorem bufRun_done_deliveries :
    ∀ (es : List BufOp) (b : Buffer), b.state = .Done →
      (∀ x ∈ es, isDelivery x = true) → bufRun b es = b := by
  intro es
  induction es with
  | nil => intro b _ _; rfl
  | cons e rest ih =>
    intro b hb hall
    show bufRun (bufStep b e) rest = b
    rw [bufStep_done_delivery b e hb (hall e (by simp))]
    exact ih b hb (fun x hx => hall x (by simp [hx]))

/-- C1: a Queued buffer receives exactly one terminal status: the first
delivery (completion or cancel) moves it to Done and records that
delivery's status, and every later delivery — in particular a transport
completion arriving after cancel(), or a cancel arriving after a
completion — is a detected no-op that leaves the buffer, and hence its
recorded status, unchanged. -/
theorem buffer_terminal_status_once :
    ∀ b : Buffer, b.state = .Queued →
      ∀ e, isDelivery e = true →
        (bufStep b e).state = .Done ∧
        (bufStep b e).metadata.status = deliveryStatus e ∧
        ∀ es : List BufOp, (∀ x ∈ es, isDelivery x = true) →
          bufRun (bufStep b e) es = bufStep b e := by
  intro b hb e he
  have hstep : (bufStep b e).state = .Done ∧
      (bufStep b e).metadata.status = deliveryStatus e := by
    cases e with
    | complete ok seq ts bytes =>
      cases ok <;> simp [bufStep, hb, deliveryStatus]
    | cancel => simp [bufStep, hb, deliveryStatus]
    | queue r s => simp [isDelivery] at he
    | dequeue => simp [isDelivery] at he
  exact ⟨hstep.1, hstep.2,
    fun es hall => bufRun_done_deliveries es (bufStep b e) hstep.1 hall⟩

/-- Witness: queue a buffer, cancel it, then deliver a late success
completion: the status is Cancelled after the cancel and the late
completion changes nothing. -/
theorem buffer_terminal_status_once_w :
    (bufStep (bufStep (mkBuffer 0 none) (.queue 1 2)) .cancel).metadata.status =
      .FrameCancelled ∧
    bufRun (bufStep (bufStep (mkBuffer 0 none) (.queue 1 2)) .cancel)
        [.complete true 5 1000 [4096]] =
      bufStep (bufStep (mkBuffer 0 none) (.queue 1 2)) .cancel :=
  ⟨(buffer_terminal_status_once (bufStep (mkBuffer 0 none) (.queue 1 2))
      (by decide) .cancel rfl).2.1,
   (buffer_terminal_status_once (bufStep (mkBuffer 0 none) (.queue 1 2))
      (by decide) .cancel rfl).2.2 [.complete true 5 1000 [4096]] (by decide)⟩

/-- Every single lifecycle operation preserves the ownership invariant. -/
theorem reqQueuedInv_step (b : Buffer) (op : BufOp) (h : reqQueuedInv b) :
    reqQueuedInv (bufStep b op) := by
  unfold reqQueuedInv at h ⊢
  cases op with
  | queue r s =>
    by_cases hs : b.state = .Allocated <;> simp [bufStep, hs, h]
  | complete ok seq ts bytes =>
    by_cases hs : b.state = .Queued <;> simp [bufStep, hs, h]
  | cancel =>
    by_cases hs : b.state = .Queued <;> simp [bufStep, hs, h]
  | dequeue =>
    by_cases hs : b.state = .Done <;> simp [bufStep, hs, h]

/-- The invariant carries over arbitrary operation sequences. -/
theorem reqQueuedInv_run :
    ∀ (ops : List BufOp) (b : Buffer), reqQueuedInv b →
      reqQueuedInv (bufRun b ops) := by
  intro ops
  induction ops with
  | nil => intro b h; exact h
  | cons op rest ih =>
    intro b h
    exact ih (bufStep b op) (reqQueuedInv_step b op h)

/-- C2: along every sequence of lifecycle operations applied to a freshly
constructed Buffer, at every point the request_ back reference is non-null
exactly when the buffer is in the Queued state. -/
theorem buffer_request_iff_queued :
    ∀ (index : Nat) (tmpl : Option FrameMetadata) (ops : List BufOp),
      reqQueuedInv (bufRun (mkBuffer index tmpl) ops) := by
  intro index tmpl ops
  apply reqQueuedInv_run
  unfold reqQueuedInv mkBuffer
  by_cases hidx : index = bufferDefaultIndex <;> simp [hidx]

/-! ## Claim theorems: sequence numbering -/

/-- The sequence numbers stamped for a batch of submissions starting at
counter value c are exactly the consecutive values c, c+1, ... . -/
theorem submitAll_snd :
    ∀ (outcomes : List FrameStatus) (c : Nat),
      (submitAll c outcomes).map Prod.snd = List.range' c outcomes.length := by
  intro outcomes
  induction outcomes with
  | nil => intro c; rfl
  | cons o rest ih =>
    intro c
    show c :: (submitAll (c + 1) rest).map Prod.snd =
      c :: List.range' (c + 1) rest.length
    rw [ih (c + 1)]

/-- Submission does not alter the outcomes: the stamped batch pairs each
submission with its own outcome, in order. -/
theorem submitAll_fst :
    ∀ (outcomes : List FrameStatus) (c : Nat),
      (submitAll c outcomes).map Prod.fst = outcomes := by
  intro outcomes
  induction outcomes with
  | nil => intro c; rfl
  | cons o rest ih =>
    intro c
    show o :: (submitAll (c + 1) rest).map Prod.fst = o :: rest
    rw [ih (c + 1)]

/-- Every element of `List.range' c n` is at least c. -/
theorem range'_le_mem :
    ∀ (n c x : Nat), x ∈ List.range' c n → c ≤ x := by
  intro n
  induction n with
  | zero => intro c x hx; cases hx
  | succ m ih =>
    intro c x hx
    rcases List.mem_cons.mp hx with h | h
    · omega
    · have := ih (c + 1) x h
      omega

/-- The consecutive values c, c+1, ... are strictly increasing. -/
theorem range'_pairwise_lt :
    ∀ (n c : Nat), List.Pairwise (· < ·) (List.range' c n) := by
  intro n
  induction n with
  | zero => intro c; exact List.Pairwise.nil
  | succ m ih =>
    intro c
    refine List.Pairwise.cons ?_ (ih (c + 1))
    intro x hx
    have := range'_le_mem m (c + 1) x hx
    omega

/-- The consecutive values c, c+1, ... have no gaps: each element is the
predecessor plus one. -/
theorem range'_chain_succ :
    ∀ (n c : Nat), List.Chain' (fun a b => b = a + 1) (List.range' c n) := by
  intro n
  induction n with
  | zero => intro c; exact List.chain'_nil
  | succ m ih =>
    intro c
    cases m with
    | zero => exact List.chain'_singleton c
    | succ k =>
      exact List.Chain'.cons rfl (ih (c + 1))

/-- C3: starting from any per-stream counter value c, a batch of
submissions is stamped with exactly the consecutive sequence numbers
c, c+1, ...: strictly increasing in submission order, gap-free,
repeat-free, one number per submitted capture, and entirely independent of
the Success/Error/Cancelled outcomes, which are carried through
unchanged. -/
theorem stream_sequence_monotonic :
    ∀ (c : Nat) (outcomes : List FrameStatus),
      (submitAll c outcomes).map Prod.snd = List.range' c outcomes.length ∧
      (submitAll c outcomes).map Prod.fst = outcomes ∧
      (submitAll c outcomes).length = outcomes.length ∧
      List.Pairwise (· < ·) ((submitAll c outcomes).map Prod.snd) ∧
      List.Chain' (fun a b => b = a + 1) ((submitAll c outcomes).map Prod.snd) := by
  intro c outcomes
  have hsnd := submitAll_snd outcomes c
  refine ⟨hsnd, submitAll_fst outcomes c, ?_, ?_, ?_⟩
  · have := congrArg List.length hsnd
    simpa using this
  · rw [hsnd]; exact range'_pairwise_lt outcomes.length c
  · rw [hsnd]; exact range'_chain_succ outcomes.length c

/-! ## Claim theorems: camera-manager singleton and format table -/

/-- C7: gst_libcamera_get_camera_manager always returns a non-null
instance; while a previously returned reference is still alive it returns
exactly that instance with status 0, touching nothing and constructing and
starting nothing; only when no reference is alive does it construct a
fresh instance, store it in the singleton slot, start it and return the
start result as the status. -/
theorem camera_manager_singleton_acquire :
    ∀ (st : CMState) (r : Int),
      (gst_libcamera_get_camera_manager st r).cm.isSome = true ∧
      (∀ id, st.alive = some id →
        gst_libcamera_get_camera_manager st r =
          { cm := some id, ret := 0, state := st, constructed := false }) ∧
      (st.alive = none →
        (gst_libcamera_get_camera_manager st r).constructed = true ∧
        (gst_libcamera_get_camera_manager st r).ret = r ∧
        (gst_libcamera_get_camera_manager st r).state.alive =
          (gst_libcamera_get_camera_manager st r).cm) := by
  intro st r
  cases h : st.alive with
  | some id => simp [gst_libcamera_get_camera_manager, h]
  | none => simp [gst_libcamera_get_camera_manager, h]

/-- Witness: with instance 7 still alive, the call hands back instance 7
with status 0 and no construction. -/
theorem camera_manager_singleton_acquire_w :
    gst_libcamera_get_camera_manager { alive := some 7, nextId := 8 } 5 =
      { cm := some 7, ret := 0, state := { alive := some 7, nextId := 8 },
        constructed := false } :=
  (camera_manager_singleton_acquire { alive := some 7, nextId := 8 } 5).2.1 7 rfl

/-- C9: for every PixelFormat the table maps to a raw (neither UNKNOWN nor
ENCODED) GStreamer format, converting to GStreamer and back returns the
same PixelFormat; for the compressed MJPEG and JPEG formats the round trip
yields the default-constructed invalid PixelFormat because ENCODED is
rejected; and every PixelFormat absent from the table maps to UNKNOWN. -/
theorem format_table_round_trip :
    (∀ f : PixelFormat,
      pixel_format_to_gst_format f ≠ .UNKNOWN →
      pixel_format_to_gst_format f ≠ .ENCODED →
      gst_format_to_pixel_format (pixel_format_to_gst_format f) = f) ∧
    gst_format_to_pixel_format (pixel_format_to_gst_format .MJPEG) = .invalid ∧
    gst_format_to_pixel_format (pixel_format_to_gst_format .JPEG) = .invalid ∧
    (∀ f : PixelFormat, (∀ pr ∈ format_map, pr.2 ≠ f) →
      pixel_format_to_gst_format f = .UNKNOWN) := by
  have habsent : ∀ f : PixelFormat, (∀ pr ∈ format_map, pr.2 ≠ f) →
      pixel_format_to_gst_format f = .UNKNOWN := by
    intro f hf
    have hnone : format_map.find? (fun item => item.2 == f) = none := by
      rw [List.find?_eq_none]
      intro x hx
      simpa using hf x hx
    simp [pixel_format_to_gst_format, hnone]
  refine ⟨?_, by decide, by decide, habsent⟩
  intro f
  cases f with
  | other n =>
    intro h1 _
    refine absurd (habsent (.other n) ?_) h1
    intro pr hpr
    fin_cases hpr <;> simp
  | invalid => intro h1 _; exact absurd (by decide) h1
  | NV42 => intro h1 _; exact absurd (by decide) h1
  | MJPEG => intro _ h2; exact absurd (by decide) h2
  | JPEG => intro _ h2; exact absurd (by decide) h2
  | BGR888 => intro _ _; decide
  | RGB888 => intro _ _; decide
  | BGRA8888 => intro _ _; decide
  | NV12 => intro _ _; decide
  | NV21 => intro _ _; decide
  | NV16 => intro _ _; decide
  | NV61 => intro _ _; decide
  | NV24 => intro _ _; decide
  | YUV420 => intro _ _; decide
  | YVU420 => intro _ _; decide
  | YUV422 => intro _ _; decide
  | UYVY => intro _ _; decide
  | VYUY => intro _ _; decide
  | YUYV => intro _ _; decide
  | YVYU => intro _ _; decide

/-- Witness: the round trip at NV12, and UNKNOWN for a format outside the
table. -/
theorem format_table_round_trip_w :
    gst_format_to_pixel_format (pixel_format_to_gst_format .NV12) =
      PixelFormat.NV12 ∧
    pixel_format_to_gst_format (.other 42) = .UNKNOWN :=
  ⟨format_table_round_trip.1 .NV12 (by decide) (by decide),
   format_table_round_trip.2.2.2 (.other 42) (by decide)⟩

/-! ## Claim theorems: caps structure selection -/

/-- One loop iteration leaves best_fixed alone or sets it to the current
(non-negative) structure index, and likewise for best_in_range. -/
theorem selStep_cases (cfgw cfgh i : Nat) (st : SelState) (s : GstStructureModel) :
    ((selStep cfgw cfgh i st s).bestFixed = st.bestFixed ∨
      (selStep cfgw cfgh i st s).bestFixed = (i : Int)) ∧
    ((selStep cfgw cfgh i st s).bestInRange = st.bestInRange ∨
      (selStep cfgw cfgh i st s).bestInRange = (i : Int)) := by
  unfold selStep
  by_cases hf : s.hasFixedSize <;> simp [hf] <;> split <;> simp

/-- Once best_fixed is non-negative it stays non-negative for the rest of
the loop, and likewise for best_in_range. -/
theorem selLoop_sticky :
    ∀ (caps : List GstStructureModel) (cfgw cfgh i : Nat) (st : SelState),
      (0 ≤ st.bestFixed → 0 ≤ (selLoop cfgw cfgh i st caps).bestFixed) ∧
      (0 ≤ st.bestInRange → 0 ≤ (selLoop cfgw cfgh i st caps).bestInRange) := by
  intro caps
  induction caps with
  | nil => intro cfgw cfgh i st; exact ⟨fun h => h, fun h => h⟩
  | cons s rest ih =>
    intro cfgw cfgh i st
    have hc := selStep_cases cfgw cfgh i st s
    have ihr := ih cfgw cfgh (i + 1) (selStep cfgw cfgh i st s)
    constructor
    · intro h
      refine ihr.1 ?_
      rcases hc.1 with he | he <;> rw [he] <;> positivity
    · intro h
      refine ihr.2 ?_
      rcases hc.2 with he | he <;> rw [he] <;> positivity

/-- One loop iteration preserves the delta/index invariant. -/
theorem selStep_inv (cfgw cfgh i : Nat) (st : SelState) (s : GstStructureModel)
    (h : selInv st) : selInv (selStep cfgw cfgh i st s) := by
  unfold selInv at h ⊢
  unfold selStep
  by_cases hf : s.hasFixedSize <;> simp [hf] <;> split <;> simp_all

/-- If some remaining structure achieves a delta strictly below G_MAXUINT,
the loop ends with a usable index on at least one side. -/
theorem selLoop_hit :
    ∀ (caps : List GstStructureModel) (cfgw cfgh i : Nat) (st : SelState),
      selInv st →
      (∃ s ∈ caps, deltaOf cfgw cfgh s < G_MAXUINT) →
      0 ≤ (selLoop cfgw cfgh i st caps).bestFixed ∨
      0 ≤ (selLoop cfgw cfgh i st caps).bestInRange := by
  intro caps
  induction caps with
  | nil =>
    intro cfgw cfgh i st _ hex
    rcases hex with ⟨s, hs, _⟩
    cases hs
  | cons s rest ih =>
    intro cfgw cfgh i st hinv hex
    show 0 ≤ (selLoop cfgw cfgh (i + 1) (selStep cfgw cfgh i st s) rest).bestFixed ∨
      0 ≤ (selLoop cfgw cfgh (i + 1) (selStep cfgw cfgh i st s) rest).bestInRange
    rcases hex with ⟨w, hw, hd⟩
    rcases List.mem_cons.mp hw with hws | hwr
    · subst hws
      have hsticky := selLoop_sticky rest cfgw cfgh (i + 1) (selStep cfgw cfgh i st w)
      by_cases hf : w.hasFixedSize
      · left
        refine hsticky.1 ?_
        unfold selStep
        by_cases hlt : deltaOf cfgw cfgh w < st.bestFixedDelta
        · simp [hf, hlt]
        · have hle : st.bestFixedDelta ≤ deltaOf cfgw cfgh w := le_of_not_lt hlt
          have : st.bestFixedDelta < G_MAXUINT := lt_of_le_of_lt hle hd
          have h0 := hinv.1 this
          simp [hf, hlt, h0]
      · right
        refine hsticky.2 ?_
        unfold selStep
        by_cases hlt : deltaOf cfgw cfgh w < st.bestInRangeDelta
        · simp [hf, hlt]
        · have hle : st.bestInRangeDelta ≤ deltaOf cfgw cfgh w := le_of_not_lt hlt
          have : st.bestInRangeDelta < G_MAXUINT := lt_of_le_of_lt hle hd
          have h0 := hinv.2 this
          simp [hf, hlt, h0]
    · exact ih cfgw cfgh (i + 1) (selStep cfgw cfgh i st s)
        (selStep_inv cfgw cfgh i st s hinv) ⟨w, hwr, hd⟩

/-- The loop never produces an index at or beyond the end of the caps: the
best indices stay below the starting index plus the number of structures
scanned. -/
theorem selLoop_bound :
    ∀ (caps : List GstStructureModel) (cfgw cfgh i : Nat) (st : SelState),
      (st.bestFixed < (i : Int) →
        (selLoop cfgw cfgh i st caps).bestFixed < (i : Int) + caps.length) ∧
      (st.bestInRange < (i : Int) →
        (selLoop cfgw cfgh i st caps).bestInRange < (i : Int) + caps.length) := by
  intro caps
  induction caps with
  | nil =>
    intro cfgw cfgh i st
    constructor <;> intro h <;> simpa using h
  | cons s rest ih =>
    intro cfgw cfgh i st
    have hc := selStep_cases cfgw cfgh i st s
    have ihr := ih cfgw cfgh (i + 1) (selStep cfgw cfgh i st s)
    have hunfold : selLoop cfgw cfgh i st (s :: rest) =
        selLoop cfgw cfgh (i + 1) (selStep cfgw cfgh i st s) rest := rfl
    rw [hunfold]
    constructor
    · intro h
      have hlt : (selStep cfgw cfgh i st s).bestFixed < ((i + 1 : Nat) : Int) := by
        rcases hc.1 with he | he <;> rw [he] <;> push_cast <;> omega
      have := ihr.1 hlt
      simp only [List.length_cons] at this ⊢
      push_cast at this ⊢
      omega
    · intro h
      have hlt : (selStep cfgw cfgh i st s).bestInRange < ((i + 1 : Nat) : Int) := by
        rcases hc.2 with he | he <;> rw [he] <;> push_cast <;> omega
      have := ihr.2 hlt
      simp only [List.length_cons] at this ⊢
      push_cast at this ⊢
      omega

/-- C10 (amended): whenever the caps contain at least one structure whose
computed delta weight is strictly below the initial accumulator value
G_MAXUINT — in particular any structure whose dimensions are close to the
configured size — the selection loop ends with a usable best index and the
structure lookup happens at a valid position; a fixed-size best is always
preferred over a ranged one; and with zero structures both candidates stay
-1 and the lookup index -1 is out of range. -/
theorem caps_selection_valid :
    (∀ (cfgw cfgh : Nat) (caps : List GstStructureModel),
      (∃ s ∈ caps, deltaOf cfgw cfgh s < G_MAXUINT) →
      0 ≤ chosenIndex cfgw cfgh caps ∧
      (chosenIndex cfgw cfgh caps).toNat < caps.length) ∧
    (∀ (cfgw cfgh : Nat) (caps : List GstStructureModel),
      0 ≤ (selLoop cfgw cfgh 0 initSel caps).bestFixed →
      chosenIndex cfgw cfgh caps = (selLoop cfgw cfgh 0 initSel caps).bestFixed) ∧
    (∀ cfgw cfgh : Nat,
      (selLoop cfgw cfgh 0 initSel []).bestFixed = -1 ∧
      (selLoop cfgw cfgh 0 initSel []).bestInRange = -1 ∧
      chosenIndex cfgw cfgh [] = -1) := by
  refine ⟨?_, ?_, ?_⟩
  · intro cfgw cfgh caps hex
    have hinv0 : selInv initSel := by
      constructor <;> intro h <;> exact absurd h (lt_irrefl _)
    have hhit := selLoop_hit caps cfgw cfgh 0 initSel hinv0 hex
    have hbound := selLoop_bound caps cfgw cfgh 0 initSel
    have hbf := hbound.1 (by norm_num [initSel])
    have hbr := hbound.2 (by norm_num [initSel])
    simp only [Nat.cast_zero, zero_add] at hbf hbr
    have hch : chosenIndex cfgw cfgh caps =
        if 0 ≤ (selLoop cfgw cfgh 0 initSel caps).bestFixed
        then (selLoop cfgw cfgh 0 initSel caps).bestFixed
        else (selLoop cfgw cfgh 0 initSel caps).bestInRange := rfl
    by_cases hpos : 0 ≤ (selLoop cfgw cfgh 0 initSel caps).bestFixed
    · rw [hch, if_pos hpos]
      exact ⟨hpos, by omega⟩
    · have hir : 0 ≤ (selLoop cfgw cfgh 0 initSel caps).bestInRange := by
        rcases hhit with h | h
        · exact absurd h hpos
        · exact h
      rw [hch, if_neg hpos]
      exact ⟨hir, by omega⟩
  · intro cfgw cfgh caps hpos
    have hch : chosenIndex cfgw cfgh caps =
        if 0 ≤ (selLoop cfgw cfgh 0 initSel caps).bestFixed
        then (selLoop cfgw cfgh 0 initSel caps).bestFixed
        else (selLoop cfgw cfgh 0 initSel caps).bestInRange := rfl
    rw [hch, if_pos hpos]
  · intro cfgw cfgh
    exact ⟨rfl, rfl, rfl⟩

/-- Witness: a single fixed 640x480 structure against a 640x480
configuration has delta 0, so the selection yields the valid index 0. -/
theorem caps_selection_valid_w :
    0 ≤ chosenIndex 640 480 [{ hasFixedSize := true, width := 640, height := 480 }] ∧
    (chosenIndex 640 480 [{ hasFixedSize := true, width := 640, height := 480 }]).toNat <
      ([{ hasFixedSize := true, width := 640, height := 480 }] :
        List GstStructureModel).length :=
  caps_selection_valid.1 640 480 [{ hasFixedSize := true, width := 640, height := 480 }]
    ⟨{ hasFixedSize := true, width := 640, height := 480 }, by decide, by decide⟩

/-- C10 counterexample: a caps with one structure is not enough for a
non-negative best index.  A single fixed structure of 65637 x 65635
against a configured size of 100 x 100 has delta weight
65537 * 65535 = 2^32 - 1 = G_MAXUINT, which fails the strict
`delta < best_fixed_delta` comparison against the G_MAXUINT initial value,
so both best indices stay -1 and the structure lookup is handed the
out-of-range index -1 despite the caps being non-empty. -/
theorem caps_selection_counterexample :
    ([{ hasFixedSize := true, width := 65637, height := 65635 }] :
        List GstStructureModel).length = 1 ∧
    deltaOf 100 100 { hasFixedSize := true, width := 65637, height := 65635 } =
      G_MAXUINT ∧
    (selLoop 100 100 0 initSel
      [{ hasFixedSize := true, width := 65637, height := 65635 }]).bestFixed = -1 ∧
    (selLoop 100 100 0 initSel
      [{ hasFixedSize := true, width := 65637, height := 65635 }]).bestInRange = -1 ∧
    chosenIndex 100 100
      [{ hasFixedSize := true, width := 65637, height := 65635 }] = -1 := by
  refine ⟨rfl, by decide, by decide, by decide, by decide⟩

end Libcamera
